import Mathlib

/-!
Shallow embedding of the repo-optimizer scoring and analysis core
(`src/scoring.py`, `src/analyzer.py`) together with proofs about the
claims on its behaviour.  Python dictionaries become Lean structures,
mutation becomes explicit state passing, Python exceptions become
`Except`/`Option` values, and the impure clock (`datetime.now()`)
becomes an explicit parameter.
-/

namespace RepoOptimizer

/-! ## Basic Python string helpers -/

/-- Python `str.strip()` on the whitespace set: drop whitespace from both ends. -/
def pyStrip (s : String) : String :=
  ⟨(s.toList.dropWhile Char.isWhitespace).reverse.dropWhile Char.isWhitespace |>.reverse⟩

/-- Python `str.lower()` (ASCII-adequate model): lowercase every character. -/
def pyLower (s : String) : String :=
  ⟨s.toList.map Char.toLower⟩

/-- `s.split(' ', 1)`: split off the part before the first literal space.
Returns `none` when the string has no space (Python's one-element list). -/
def splitFirstSpace (s : String) : Option (String × String) :=
  go [] s.toList
where
  go (acc : List Char) : List Char → Option (String × String)
    | [] => none
    | c :: rest =>
      if c = ' ' then some (⟨acc.reverse⟩, ⟨rest⟩)
      else go (c :: acc) rest

/-- Substring test on character lists (Python's `pat in s`). -/
def listContainsSub (pat : List Char) : List Char → Bool
  | [] => pat.isEmpty
  | c :: rest => pat.isPrefixOf (c :: rest) || listContainsSub pat rest

/-- Python `pat in s` for strings. -/
def strContainsSub (s pat : String) : Bool :=
  listContainsSub pat.toList s.toList

/-- Python `s.startswith(pre)`. -/
def pyStartsWith (s pre : String) : Bool :=
  pre.toList.isPrefixOf s.toList

/-! ## Warnings

Analyzer warnings are Python dicts `{'message': ..., 'tip': ...}`. -/

structure Warning where
  message : String
  tip : String
deriving DecidableEq, Repr

/-! ## Commit quality classifier (`analyze_commit_quality`, analyzer.py 59-105) -/

/-- The bad-keyword list of `analyze_commit_quality`. -/
def bad_keywords : List String := ["wip", "fix", "temp", "test", "debug", "hack"]

/-- A regex word character (`\w` over ASCII): letters, digits, underscore. -/
def isWordChar (c : Char) : Bool := c.isAlphanum || c == '_'

/-- A word boundary holds against a neighbouring character (or the string edge). -/
def boundaryOk : Option Char → Bool
  | none => true
  | some c => !(isWordChar c)

/-- Search for `re.search(r'\b<kw>\b', s)` where `kw` consists of word
characters: an occurrence of `kw` flanked by non-word characters or edges.
`prev` is the character just before the current position. -/
def wordSearch (kw : List Char) : Option Char → List Char → Bool
  | prev, [] => kw.isEmpty && boundaryOk prev
  | prev, c :: rest =>
    (boundaryOk prev && kw.isPrefixOf (c :: rest)
      && boundaryOk ((c :: rest).drop kw.length).head?)
    || wordSearch kw (some c) rest

/-- Whole-word keyword occurrence in a (already lowercased) message. -/
def hasWordKeyword (message kw : String) : Bool :=
  wordSearch kw.toList none message.toList

/-- The warnings one commit line contributes, in the order the Python loop
appends them: one bad-keyword warning per matching keyword, then the
very-short-message warning. -/
def commitWarnings (commit : String) : List Warning :=
  if (pyStrip commit).isEmpty then []
  else
    match splitFirstSpace commit with
    | none => []
    | some (_, subject) =>
      let message := pyLower subject
      let kwWarns := (bad_keywords.filter (fun kw => hasWordKeyword message kw)).map
        (fun kw =>
          { message := "Bad commit message: \x27" ++ pyStrip commit
              ++ "\x27 (contains \x27" ++ kw ++ "\x27)"
            tip := "Use descriptive commit messages, e.g., \x27Add user authentication feature\x27." })
      let shortWarns :=
        if message.length < 10 && !(pyStartsWith message "merge") then
          [{ message := "Very short commit message: \x27" ++ pyStrip commit ++ "\x27"
             tip := "Write meaningful commit messages explaining what changed and why." : Warning }]
        else []
      kwWarns ++ shortWarns

/-- Deduplicate warnings by message text, keeping first occurrences
(the `seen` set loop at the end of `analyze_commit_quality`). -/
def dedupByMessage : List Warning → List String → List Warning
  | [], _ => []
  | w :: ws, seen =>
    if w.message ∈ seen then dedupByMessage ws seen
    else w :: dedupByMessage ws (w.message :: seen)

/-- `analyze_commit_quality` from analyzer.py: classify each commit line and
deduplicate by message. -/
def analyze_commit_quality (commits : List String) : List Warning :=
  dedupByMessage ((commits.map commitWarnings).flatten) []

/-! ## Scoring engine (`calculate_health_score`, scoring.py 9-112)

`datetime` values compare lexicographically on their fields; the impure
`datetime.now() - timedelta(days=180)` becomes the explicit parameter
`sixMonthsAgo`. -/

structure PyDateTime where
  year : Nat
  month : Nat
  day : Nat
  hour : Nat
  minute : Nat
  second : Nat
deriving DecidableEq, Repr

/-- Python `datetime` comparison: lexicographic on the six fields. -/
def PyDateTime.leb (a b : PyDateTime) : Bool :=
  decide ((a.year, a.month, a.day, a.hour, a.minute, a.second)
    ≤ (b.year, b.month, b.day, b.hour, b.minute, b.second))

/-- The `'structure'` sub-dictionary of the analysis results. -/
structure StructureR where
  has_readme : Bool := false
  has_license : Bool := false
  has_tests : Bool := false
  has_gitignore : Bool := false
deriving DecidableEq, Repr

instance : Inhabited StructureR := ⟨{}⟩

/-- The `'history'` sub-dictionary of the analysis results. -/
structure HistoryR where
  total_commits : Nat := 0
  most_recent_commit_date : Option PyDateTime := none
  commits_quality_warnings : List Warning := []
deriving DecidableEq, Repr

instance : Inhabited HistoryR := ⟨{}⟩

/-- The `'security'` sub-dictionary. -/
structure SecurityR where
  secrets_warnings : List Warning := []
deriving DecidableEq, Repr

instance : Inhabited SecurityR := ⟨{}⟩

/-- The `'language'` sub-dictionary. -/
structure LanguageR where
  language_warnings : List Warning := []
deriving DecidableEq, Repr

instance : Inhabited LanguageR := ⟨{}⟩

/-- The `'code_quality'` sub-dictionary. -/
structure CodeQualityR where
  code_quality_warnings : List Warning := []
deriving DecidableEq, Repr

instance : Inhabited CodeQualityR := ⟨{}⟩

/-- The `'coverage'` sub-dictionary (only the warnings are scored). -/
structure CoverageR where
  coverage_warnings : List Warning := []
deriving DecidableEq, Repr

instance : Inhabited CoverageR := ⟨{}⟩

/-- The `analysis_results` dictionary; `none` models an absent key, which the
code reads through `.get(key, {})` as an empty dict, hence the defaults. -/
structure AnalysisResults where
  structureRep : Option StructureR := none
  history : Option HistoryR := none
  security : Option SecurityR := none
  language : Option LanguageR := none
  code_quality : Option CodeQualityR := none
  coverage : Option CoverageR := none
deriving DecidableEq, Repr

/-- The `options` dictionary, read through `.get(key, False)`. -/
structure Options where
  check_commits : Bool := false
  check_security : Bool := false
  check_language : Bool := false
  check_code_quality : Bool := false
  check_coverage : Bool := false
deriving DecidableEq, Repr

/-- The breakdown dictionary returned by `calculate_health_score`. -/
structure Breakdown where
  base_score : Int
  structureEntry : Int
  history : Int
  commit_quality : Int
  security : Int
  language_specific : Int
  code_quality : Int
  coverage : Int
  final_score : Int
deriving DecidableEq, Repr

/-- `calculate_health_score` from scoring.py.  The imperative accumulation of
`score` and the breakdown entries is rendered as arithmetic on the same
conditional contributions; each penalty is the `min`-capped expression from
lines 70-108, applied only when its option is set. -/
def calculate_health_score (analysis_results : AnalysisResults) (options : Options)
    (sixMonthsAgo : PyDateTime) : Int × Breakdown :=
  let structureR := analysis_results.structureRep.getD {}
  let history := analysis_results.history.getD {}
  let security := analysis_results.security.getD {}
  let language := analysis_results.language.getD {}
  -- File and directory checks (70 points total)
  let bStructure : Int :=
    (if structureR.has_readme then 20 else 0)
    + (if structureR.has_license then 15 else 0)
    + (if structureR.has_tests then 25 else 0)
    + (if structureR.has_gitignore then 15 else 0)
  -- Git history checks (30 points total)
  let bHistory : Int :=
    (if history.total_commits > 0 then 15 else 0)
    + (match history.most_recent_commit_date with
       | some d => if sixMonthsAgo.leb d then 10 else 0
       | none => 0)
  let base_score : Int := bStructure + bHistory
  -- Optional checks - penalties for issues
  let commitPenalty : Nat :=
    if options.check_commits then
      min (history.commits_quality_warnings.length * 10) 30
    else 0
  let securityPenalty : Nat :=
    if options.check_security then
      min (security.secrets_warnings.length * 20) 50
    else 0
  let languagePenalty : Nat :=
    if options.check_language then
      min (language.language_warnings.length * 10) 30
    else 0
  let code_quality_warnings :=
    (analysis_results.code_quality.getD {}).code_quality_warnings
  let long_func_count :=
    (code_quality_warnings.filter (fun w => strContainsSub w.message "Long function")).length
  let circ_dep_count :=
    (code_quality_warnings.filter (fun w => strContainsSub w.message "Circular dependency")).length
  let entropy_count :=
    (code_quality_warnings.filter (fun w => strContainsSub w.message "High-entropy")).length
  let codeQualityPenalty : Nat :=
    if options.check_code_quality then
      min (long_func_count * 5) 20 + min (circ_dep_count * 15) 30
        + min (entropy_count * 20) 40
    else 0
  let coveragePenalty : Nat :=
    if options.check_coverage then
      min ((analysis_results.coverage.getD {}).coverage_warnings.length * 15) 45
    else 0
  let score : Int := base_score - commitPenalty - securityPenalty - languagePenalty
    - codeQualityPenalty - coveragePenalty
  let final_score : Int := max score 0
  (final_score,
    { base_score := base_score
      structureEntry := bStructure
      history := bHistory
      commit_quality := -(commitPenalty : Int)
      security := -(securityPenalty : Int)
      language_specific := -(languagePenalty : Int)
      code_quality := -(codeQualityPenalty : Int)
      coverage := -(coveragePenalty : Int)
      final_score := final_score })

/-! ## Shannon entropy (`calculate_entropy`, analyzer.py 571-583)

Python floats are modelled by real numbers. -/

/-- One step of the `char_count[char] += 1` loop on an association list that
keeps first-occurrence order like a Python dict. -/
def bumpCount : List (Char × Nat) → Char → List (Char × Nat)
  | [], c => [(c, 1)]
  | (d, k) :: rest, c =>
    if c = d then (d, k + 1) :: rest else (d, k) :: bumpCount rest c

/-- The `char_count` dictionary built by `calculate_entropy`. -/
def charCounts (s : List Char) : List (Char × Nat) :=
  s.foldl bumpCount []

/-- `calculate_entropy` from analyzer.py: `0` for the empty string, otherwise
`entropy -= p * log2 p` over the character counts. -/
noncomputable def calculate_entropy (s : List Char) : ℝ :=
  if s.isEmpty then 0
  else
    (charCounts s).foldl
      (fun entropy p =>
        entropy - ((p.2 : ℝ) / (s.length : ℝ))
          * Real.logb 2 ((p.2 : ℝ) / (s.length : ℝ)))
      0

/-! ## Coverage estimator aggregation loop (`analyze_code_coverage`,
analyzer.py 310-332)

The per-file record built for `code_files[module]`; the floating-point
line-coverage estimate is not modelled (no claim touches it). -/

structure ModInfo where
  path : String
  functions : List String
  lines : Nat
deriving DecidableEq, Repr

/-- `Path.stem`: final path component without its last suffix. -/
def pathStem (p : String) : String :=
  let name := (p.splitOn "/").getLastD p
  let parts := name.splitOn "."
  if parts.length ≥ 2 && parts.head! ≠ "" then
    String.intercalate "." parts.dropLast
  else name

/-- The "no test file found" warning emitted for an uncovered module. -/
def noTestWarning (module : String) (info : ModInfo) : Warning :=
  { message := "No test file found for module \x27" ++ module ++ "\x27 ("
      ++ info.path ++ ")"
    tip := "Create a test file \x27test_" ++ pathStem info.path
      ++ ".py\x27 with test functions." }

/-- Accumulator of the `for module, info in code_files.items()` loop. -/
structure CovAcc where
  total_functions : Nat
  tested_functions : Nat
  total_lines : Nat
  coverage_warnings : List Warning
deriving DecidableEq, Repr

/-- The coverage aggregation loop of `analyze_code_coverage`: `test_files`
maps a source module to its list of test functions; a covered module
contributes `min(test_count * 2, len(functions))` tested functions, an
uncovered one contributes a single "no test file found" warning. -/
def coverageLoop (test_files : List (String × List String)) :
    List (String × ModInfo) → CovAcc → CovAcc
  | [], acc => acc
  | (module, info) :: rest, acc =>
    let acc1 := { acc with
      total_functions := acc.total_functions + info.functions.length
      total_lines := acc.total_lines + info.lines }
    match test_files.lookup module with
    | some test_functions =>
      let covered_funcs := min (test_functions.length * 2) info.functions.length
      coverageLoop test_files rest
        { acc1 with tested_functions := acc1.tested_functions + covered_funcs }
    | none =>
      coverageLoop test_files rest
        { acc1 with coverage_warnings :=
            acc1.coverage_warnings ++ [noTestWarning module info] }

/-- The tested-function contribution of one `code_files` entry. -/
def moduleCovered (test_files : List (String × List String))
    (p : String × ModInfo) : Nat :=
  match test_files.lookup p.1 with
  | some test_functions => min (test_functions.length * 2) p.2.functions.length
  | none => 0

/-! ## Python AST statements and `ast.walk`
(function collection in `analyze_code_coverage`, analyzer.py 260-278)

Only the statement shapes that matter for the claims are distinguished:
function definitions, class definitions, and everything else. -/

inductive PyStmt where
  | functionDef (name : String) (body : List PyStmt)
  | classDef (name : String) (body : List PyStmt)
  | other
deriving Repr

/-- The child statements of one AST node. -/
def PyStmt.children : PyStmt → List PyStmt
  | .functionDef _ body => body
  | .classDef _ body => body
  | .other => []

mutual

/-- Size of one AST node (measure for the breadth-first walk). -/
def PyStmt.size : PyStmt → Nat
  | .functionDef _ body => 1 + sizeListPS body
  | .classDef _ body => 1 + sizeListPS body
  | .other => 1

/-- Total size of a list of AST nodes. -/
def sizeListPS : List PyStmt → Nat
  | [] => 0
  | s :: rest => PyStmt.size s + sizeListPS rest

end

theorem sizeListPS_append (a b : List PyStmt) :
    sizeListPS (a ++ b) = sizeListPS a + sizeListPS b := by
  induction a with
  | nil => simp [sizeListPS]
  | cons x xs ih => simp [sizeListPS, ih]; omega

theorem sizeListPS_children_lt (s : PyStmt) :
    sizeListPS s.children < s.size := by
  cases s <;> simp [PyStmt.size, PyStmt.children, sizeListPS]

/-- `ast.walk`: breadth-first traversal over a queue of nodes (CPython uses a
`deque`, yielding each node and appending its children). -/
def walkBFS (q : List PyStmt) : List PyStmt :=
  match q with
  | [] => []
  | s :: rest => s :: walkBFS (rest ++ s.children)
termination_by sizeListPS q
decreasing_by
  have h1 := sizeListPS_children_lt s
  simp [sizeListPS, sizeListPS_append]
  omega

/-- The name a node contributes to the recorded function list: a
`FunctionDef` whose name does not start with an underscore. -/
def keepFunctionName : PyStmt → Option String
  | .functionDef name _ => if pyStartsWith name "_" then none else some name
  | _ => none

/-- The function list recorded by `analyze_code_coverage` for a parsed module
body: every `ast.FunctionDef` node reached by `ast.walk` whose name does not
start with an underscore (analyzer.py 264-266). -/
def collect_functions (body : List PyStmt) : List String :=
  (walkBFS body).filterMap keepFunctionName

/-- Modelled from the spec: "record its non-underscore-prefixed top-level
function names" — only the module body's immediate `FunctionDef` statements,
methods and nested functions excluded.  This is the spec's reading, to be
compared with `collect_functions` above. -/
def specTopLevelFunctions (body : List PyStmt) : List String :=
  body.filterMap keepFunctionName

/-- All nodes of a statement tree in depth-first preorder (reference
enumeration used to state what `ast.walk` collects). -/
def allNodes : PyStmt → List PyStmt
  | .functionDef n body => .functionDef n body :: allNodesList body
  | .classDef n body => .classDef n body :: allNodesList body
  | .other => [.other]
where
  allNodesList : List PyStmt → List PyStmt
    | [] => []
    | s :: rest => allNodes s ++ allNodesList rest

/-! ## Git history analyzer (`analyze_git_history`, analyzer.py 122-195)

The version-control collaborator (three `subprocess.run` calls) is modelled
as a record of `Except` results — `.error` for a `CalledProcessError`.  The
`try` block's abort-on-exception behaviour becomes explicit early returns of
the partially filled results record. -/

structure RunOutput where
  stdout : String
deriving DecidableEq, Repr

structure GitCollab where
  revListCount : Except Unit RunOutput
  logDate : Except Unit RunOutput
  logOneline : Except Unit RunOutput

/-- Python `int(s)` on a stripped string: optional sign then digits;
`none` models a `ValueError`. -/
def pyParseInt (s : String) : Option Int :=
  let t := (pyStrip s).toList
  let core := match t with
    | '-' :: rest => some (true, rest)
    | '+' :: rest => some (false, rest)
    | rest => some (false, rest)
  match core with
  | some (neg, digits) =>
    if digits = [] || !digits.all Char.isDigit then none
    else
      let n := digits.foldl (fun acc c => acc * 10 + (c.toNat - '0'.toNat)) 0
      some (if neg then -(n : Int) else (n : Int))
  | none => none

/-- Model of `datetime.strptime(s, '%Y-%m-%d %H:%M:%S')`: four-digit year,
two-digit month/day/hour/minute/second with the fixed separators and
CPython's range checks; `none` models a `ValueError`. -/
def strptimeYmdHms (s : String) : Option PyDateTime :=
  match s.toList with
  | [y1, y2, y3, y4, '-', m1, m2, '-', d1, d2, ' ',
     h1, h2, ':', mi1, mi2, ':', s1, s2] =>
    if [y1, y2, y3, y4, m1, m2, d1, d2, h1, h2, mi1, mi2, s1, s2].all Char.isDigit
    then
      let val2 := fun (a b : Char) => (a.toNat - '0'.toNat) * 10 + (b.toNat - '0'.toNat)
      let year := (val2 y1 y2) * 100 + val2 y3 y4
      let month := val2 m1 m2
      let day := val2 d1 d2
      let hour := val2 h1 h2
      let minute := val2 mi1 mi2
      let second := val2 s1 s2
      if 1 ≤ month && month ≤ 12 && 1 ≤ day && day ≤ 31
          && hour ≤ 23 && minute ≤ 59 && second ≤ 61 then
        some ⟨year, month, day, hour, minute, second⟩
      else none
    else none
  | _ => none

/-- Python `s[:n]`: the first `n` characters. -/
def pySliceTo (s : String) (n : Nat) : String :=
  ⟨s.toList.take n⟩

/-- Python `s.split(sep)` for a single separator character. -/
def pySplitChar (sep : Char) (s : String) : List String :=
  go [] s.toList
where
  go (acc : List Char) : List Char → List String
    | [] => [⟨acc.reverse⟩]
    | c :: rest =>
      if c = sep then ⟨acc.reverse⟩ :: go [] rest
      else go (c :: acc) rest

/-- Split `log --oneline` output into commit lines:
`stdout.strip().split('\n') if stdout.strip() else []`. -/
def onelineCommits (stdout : String) : List String :=
  if pyStrip stdout = "" then [] else pySplitChar '\n' (pyStrip stdout)

/-- `analyze_git_history` from analyzer.py, with `check_commits` the only
option it reads.  Each `except` clause returns the results record as mutated
so far. -/
def analyze_git_history (collab : GitCollab) (check_commits : Bool) : HistoryR :=
  let results : HistoryR := {}
  match collab.revListCount with
  | .error _ => results
  | .ok countOut =>
    match pyParseInt countOut.stdout with
    | none => results
    | some n =>
      -- Python `int()` may be negative in principle; `total_commits` is a
      -- count from `rev-list --count`, modelled as the integer's clamp.
      let r1 : HistoryR := { results with total_commits := n.toNat }
      match collab.logDate with
      | .error _ => r1
      | .ok dateOut =>
        let continueWith : HistoryR → HistoryR := fun r =>
          if check_commits then
            match collab.logOneline with
            | .error _ => r
            | .ok logOut =>
              { r with commits_quality_warnings :=
                  analyze_commit_quality (onelineCommits logOut.stdout) }
          else r
        if pyStrip dateOut.stdout ≠ "" then
          match strptimeYmdHms (pySliceTo (pyStrip dateOut.stdout) 19) with
          | none => r1
          | some d =>
            continueWith { r1 with most_recent_commit_date := some d }
        else continueWith r1

/-! ## Circular-dependency detector (`check_circular_dependencies`,
analyzer.py 504-568)

The import graph is an association list from module name to its imported
root-package names (`import_graph`, a dict with unique keys).  The mutable
DFS state (`visited`, `rec_stack`, `path`, `warnings`, `cycle_found`)
becomes an explicit record. -/

abbrev ImportGraph := List (String × List String)

/-- `import_graph.get(node, [])`. -/
def graphGet (g : ImportGraph) (node : String) : List String :=
  (g.lookup node).getD []

structure DfsSt where
  visited : List String
  recStack : List String
  path : List String
  warnings : List Warning
  cycleFound : Bool
deriving Repr

/-- The warning built when a cycle closes: the path slice from the first
occurrence of the repeated node, joined by arrows. -/
def cycleWarning (cycle : List String) : Warning :=
  { message := "Circular dependency detected: " ++ String.intercalate " -> " cycle
    tip := "Refactor to break circular imports, e.g., move shared code to a separate module or use dependency injection." }

mutual

/-- `has_cycle(node, path)`: mark the node visited, push it on the recursion
stack and path, then scan its neighbours.  `fuel` bounds the recursion depth
(any value at least the number of distinct module names suffices; see
`dfsFuel`). -/
def hasCycle (g : ImportGraph) (fuel : Nat) (node : String) (st : DfsSt) :
    Bool × DfsSt :=
  match fuel with
  | 0 => (false, st)
  | fuel + 1 =>
    let st1 : DfsSt := { st with
      visited := node :: st.visited
      recStack := node :: st.recStack
      path := st.path ++ [node] }
    neighLoop g fuel node (graphGet g node) st1
termination_by (fuel, 0)

/-- The `for neighbor in import_graph.get(node, [])` loop body of
`has_cycle`; on falling off the loop, pop the path and leave the recursion
stack. -/
def neighLoop (g : ImportGraph) (fuel : Nat) (node : String)
    (neighbors : List String) (st : DfsSt) : Bool × DfsSt :=
  match neighbors with
  | [] =>
    (false, { st with path := st.path.dropLast, recStack := st.recStack.erase node })
  | nb :: rest =>
    if nb ∈ st.visited then
      if nb ∈ st.recStack then
        -- Cycle found
        let cycleStart := st.path.indexOf nb
        let cycle := st.path.drop cycleStart ++ [nb]
        (true, { st with
          warnings := st.warnings ++ [cycleWarning cycle]
          cycleFound := true })
      else
        neighLoop g fuel node rest st
    else
      match hasCycle g fuel nb st with
      | (true, st2) => (true, st2)
      | (false, st2) => neighLoop g fuel node rest st2
termination_by (fuel, neighbors.length + 1)

end

/-- The driver loop `for node in import_graph: ...` with the
`if cycle_found: break` early exit. -/
def outerLoop (g : ImportGraph) (fuel : Nat) : List String → DfsSt → DfsSt
  | [], st => st
  | node :: rest, st =>
    if node ∈ st.visited then outerLoop g fuel rest st
    else
      let st2 := (hasCycle g fuel node st).2
      if st2.cycleFound then st2 else outerLoop g fuel rest st2

/-- A recursion-depth bound that always suffices: every module name that can
ever be visited, plus one. -/
def dfsFuel (g : ImportGraph) : Nat :=
  (g.map Prod.fst ++ (g.map Prod.snd).flatten).length + 1

/-- `check_circular_dependencies` (the cycle-detection half, given the
built import graph): run the DFS from every unvisited node, stopping after
the first cycle. -/
def check_circular_dependencies (g : ImportGraph) : List Warning :=
  (outerLoop g (dfsFuel g) (g.map Prod.fst) ⟨[], [], [], [], false⟩).warnings

/-- Reachability along import edges (zero or more steps). -/
inductive Reaches (g : ImportGraph) : String → String → Prop
  | refl (a : String) : Reaches g a a
  | step {a b c : String} : b ∈ graphGet g a → Reaches g b c → Reaches g a c

/-- An acyclic import graph: no edge closes a loop back to its source. -/
def Acyclic (g : ImportGraph) : Prop :=
  ∀ a b : String, b ∈ graphGet g a → ¬ Reaches g b a

/-! ## Named components of the scoring computation -/

/-- The four structural contributions (scoring.py 37-51). -/
def structurePoints (st : StructureR) : Int :=
  (if st.has_readme then 20 else 0)
  + (if st.has_license then 15 else 0)
  + (if st.has_tests then 25 else 0)
  + (if st.has_gitignore then 15 else 0)

/-- The two history contributions (scoring.py 54-66). -/
def historyPoints (h : HistoryR) (sixMonthsAgo : PyDateTime) : Int :=
  (if h.total_commits > 0 then 15 else 0)
  + (match h.most_recent_commit_date with
     | some d => if sixMonthsAgo.leb d then 10 else 0
     | none => 0)

/-- The commit-quality penalty (scoring.py 71-75). -/
def commitPenaltyN (ar : AnalysisResults) (opts : Options) : Nat :=
  if opts.check_commits then
    min ((ar.history.getD {}).commits_quality_warnings.length * 10) 30
  else 0

/-- The security penalty (scoring.py 77-81). -/
def securityPenaltyN (ar : AnalysisResults) (opts : Options) : Nat :=
  if opts.check_security then
    min ((ar.security.getD {}).secrets_warnings.length * 20) 50
  else 0

/-- The language penalty (scoring.py 83-88). -/
def languagePenaltyN (ar : AnalysisResults) (opts : Options) : Nat :=
  if opts.check_language then
    min ((ar.language.getD {}).language_warnings.length * 10) 30
  else 0

/-- Count of long-function warnings among the code-quality warnings. -/
def longFuncCount (ar : AnalysisResults) : Nat :=
  ((ar.code_quality.getD {}).code_quality_warnings.filter
    (fun w => strContainsSub w.message "Long function")).length

/-- Count of circular-dependency warnings among the code-quality warnings. -/
def circDepCount (ar : AnalysisResults) : Nat :=
  ((ar.code_quality.getD {}).code_quality_warnings.filter
    (fun w => strContainsSub w.message "Circular dependency")).length

/-- Count of high-entropy warnings among the code-quality warnings. -/
def entropyCount (ar : AnalysisResults) : Nat :=
  ((ar.code_quality.getD {}).code_quality_warnings.filter
    (fun w => strContainsSub w.message "High-entropy")).length

/-- The code-quality penalty, capped per subtype (scoring.py 90-102). -/
def codeQualityPenaltyN (ar : AnalysisResults) (opts : Options) : Nat :=
  if opts.check_code_quality then
    min (longFuncCount ar * 5) 20 + min (circDepCount ar * 15) 30
      + min (entropyCount ar * 20) 40
  else 0

/-- The coverage penalty (scoring.py 104-108). -/
def coveragePenaltyN (ar : AnalysisResults) (opts : Options) : Nat :=
  if opts.check_coverage then
    min ((ar.coverage.getD {}).coverage_warnings.length * 15) 45
  else 0

/-- The sum of all applied penalties. -/
def appliedPenalties (ar : AnalysisResults) (opts : Options) : Nat :=
  commitPenaltyN ar opts + securityPenaltyN ar opts + languagePenaltyN ar opts
    + codeQualityPenaltyN ar opts + coveragePenaltyN ar opts

/-- `calculate_health_score` written out through the named components. -/
theorem calculate_health_score_eq (ar : AnalysisResults) (opts : Options)
    (t : PyDateTime) :
    calculate_health_score ar opts t =
      (max (structurePoints (ar.structureRep.getD {})
              + historyPoints (ar.history.getD {}) t
              - commitPenaltyN ar opts - securityPenaltyN ar opts
              - languagePenaltyN ar opts - codeQualityPenaltyN ar opts
              - coveragePenaltyN ar opts) 0,
       { base_score := structurePoints (ar.structureRep.getD {})
            + historyPoints (ar.history.getD {}) t
         structureEntry := structurePoints (ar.structureRep.getD {})
         history := historyPoints (ar.history.getD {}) t
         commit_quality := -(commitPenaltyN ar opts : Int)
         security := -(securityPenaltyN ar opts : Int)
         language_specific := -(languagePenaltyN ar opts : Int)
         code_quality := -(codeQualityPenaltyN ar opts : Int)
         coverage := -(coveragePenaltyN ar opts : Int)
         final_score := max (structurePoints (ar.structureRep.getD {})
            + historyPoints (ar.history.getD {}) t
            - commitPenaltyN ar opts - securityPenaltyN ar opts
            - languagePenaltyN ar opts - codeQualityPenaltyN ar opts
            - coveragePenaltyN ar opts) 0 }) := rfl

theorem structurePoints_bounds (st : StructureR) :
    0 ≤ structurePoints st ∧ structurePoints st ≤ 75 := by
  unfold structurePoints
  split_ifs <;> omega

theorem historyPoints_bounds (h : HistoryR) (t : PyDateTime) :
    0 ≤ historyPoints h t ∧ historyPoints h t ≤ 25 := by
  unfold historyPoints
  cases h.most_recent_commit_date <;> split_ifs <;> simp <;> omega

theorem appliedPenalties_nonneg (ar : AnalysisResults) (opts : Options) :
    0 ≤ appliedPenalties ar opts := Nat.zero_le _

/-- Shared bound: the first component of `calculate_health_score` is between
0 and 100 and equals `max 0 (base - applied penalties)`. -/
theorem calculate_health_score_bounds (ar : AnalysisResults) (opts : Options)
    (t : PyDateTime) :
    0 ≤ (calculate_health_score ar opts t).1
      ∧ (calculate_health_score ar opts t).1 ≤ 100
      ∧ (calculate_health_score ar opts t).1
        = max 0 ((calculate_health_score ar opts t).2.base_score
            - (appliedPenalties ar opts : Int)) := by
  rw [calculate_health_score_eq]
  have h1 := structurePoints_bounds (ar.structureRep.getD {})
  have h2 := historyPoints_bounds (ar.history.getD {}) t
  simp only [appliedPenalties]
  constructor
  · omega
  constructor
  · omega
  · push_cast
    omega

/-! ## Claim theorems on the scoring engine -/

/-- C1: for every analysis-results input and every option set,
`calculate_health_score` returns a final score with `0 ≤ final_score ≤ 100`,
and `final_score = max(0, base_score − sum of the applied penalties)`. -/
theorem claim_C1 (ar : AnalysisResults) (opts : Options) (t : PyDateTime) :
    0 ≤ (calculate_health_score ar opts t).1
      ∧ (calculate_health_score ar opts t).1 ≤ 100
      ∧ (calculate_health_score ar opts t).1
        = max 0 ((calculate_health_score ar opts t).2.base_score
            - (appliedPenalties ar opts : Int)) :=
  calculate_health_score_bounds ar opts t

/-- C10: the breakdown returned by `calculate_health_score` is internally
consistent: `base_score` is the sum of the structure and history entries,
which are nonnegative; the five penalty entries are nonpositive; the final
score is `max 0 (base_score + penalty entries)`; and the first tuple element
equals the breakdown's `final_score`. -/
theorem claim_C10 (ar : AnalysisResults) (opts : Options) (t : PyDateTime) :
    ((calculate_health_score ar opts t).2.base_score
        = (calculate_health_score ar opts t).2.structureEntry
          + (calculate_health_score ar opts t).2.history)
      ∧ 0 ≤ (calculate_health_score ar opts t).2.structureEntry
      ∧ 0 ≤ (calculate_health_score ar opts t).2.history
      ∧ (calculate_health_score ar opts t).2.commit_quality ≤ 0
      ∧ (calculate_health_score ar opts t).2.security ≤ 0
      ∧ (calculate_health_score ar opts t).2.language_specific ≤ 0
      ∧ (calculate_health_score ar opts t).2.code_quality ≤ 0
      ∧ (calculate_health_score ar opts t).2.coverage ≤ 0
      ∧ (calculate_health_score ar opts t).1
        = max 0 ((calculate_health_score ar opts t).2.base_score
            + ((calculate_health_score ar opts t).2.commit_quality
               + (calculate_health_score ar opts t).2.security
               + (calculate_health_score ar opts t).2.language_specific
               + (calculate_health_score ar opts t).2.code_quality
               + (calculate_health_score ar opts t).2.coverage))
      ∧ (calculate_health_score ar opts t).1
        = (calculate_health_score ar opts t).2.final_score := by
  rw [calculate_health_score_eq]
  have h1 := structurePoints_bounds (ar.structureRep.getD {})
  have h2 := historyPoints_bounds (ar.history.getD {}) t
  refine ⟨rfl, h1.1, h2.1, ?_, ?_, ?_, ?_, ?_, ?_, rfl⟩ <;> (simp; try omega)

/-- C2: when a check is enabled its breakdown entry equals minus its capped
penalty (commit quality `min(10n,30)`, security `min(20n,50)`, language
`min(10n,30)`, code quality `min(5L,20)+min(15C,30)+min(20E,40)` — hence
never below −90 — and coverage `min(15n,45)`); ten commit-quality warnings
with the check enabled give entry −30; a check that was not requested leaves
its entry 0. -/
theorem claim_C2 (ar : AnalysisResults) (opts : Options) (t : PyDateTime) :
    (opts.check_commits = true →
      (calculate_health_score ar opts t).2.commit_quality
        = -((min (10 * (ar.history.getD {}).commits_quality_warnings.length) 30 : Nat) : Int))
    ∧ (opts.check_security = true →
      (calculate_health_score ar opts t).2.security
        = -((min (20 * (ar.security.getD {}).secrets_warnings.length) 50 : Nat) : Int))
    ∧ (opts.check_language = true →
      (calculate_health_score ar opts t).2.language_specific
        = -((min (10 * (ar.language.getD {}).language_warnings.length) 30 : Nat) : Int))
    ∧ (opts.check_code_quality = true →
      (calculate_health_score ar opts t).2.code_quality
        = -((min (5 * longFuncCount ar) 20 + min (15 * circDepCount ar) 30
            + min (20 * entropyCount ar) 40 : Nat) : Int)
        ∧ -90 ≤ (calculate_health_score ar opts t).2.code_quality)
    ∧ (opts.check_coverage = true →
      (calculate_health_score ar opts t).2.coverage
        = -((min (15 * (ar.coverage.getD {}).coverage_warnings.length) 45 : Nat) : Int))
    ∧ (opts.check_commits = true →
        (ar.history.getD {}).commits_quality_warnings.length = 10 →
      (calculate_health_score ar opts t).2.commit_quality = -30)
    ∧ (opts.check_commits = false →
        (calculate_health_score ar opts t).2.commit_quality = 0)
    ∧ (opts.check_security = false →
        (calculate_health_score ar opts t).2.security = 0)
    ∧ (opts.check_language = false →
        (calculate_health_score ar opts t).2.language_specific = 0)
    ∧ (opts.check_code_quality = false →
        (calculate_health_score ar opts t).2.code_quality = 0)
    ∧ (opts.check_coverage = false →
        (calculate_health_score ar opts t).2.coverage = 0) := by
  rw [calculate_health_score_eq]
  simp only [commitPenaltyN, securityPenaltyN, languagePenaltyN,
    codeQualityPenaltyN, coveragePenaltyN]
  refine ⟨?_, ?_, ?_, ?_, ?_, ?_, ?_, ?_, ?_, ?_, ?_⟩ <;> intro h <;>
    simp only [h, if_true, if_false, Bool.false_eq_true] <;> push_cast <;>
    omega

/-- An analysis-results record with exactly ten synthetic commit-quality
warnings (the construction of the spec's capping test). -/
def tenWarningsResults : AnalysisResults :=
  { history := some ⟨1, none, List.replicate 10 ⟨"w", "t"⟩⟩ }

/-- Witness for C2: a concrete run with exactly ten synthetic commit-quality
warnings and only the commit check enabled. -/
theorem claim_C2_witness :
    (calculate_health_score tenWarningsResults { check_commits := true }
        ⟨2024, 1, 1, 0, 0, 0⟩).2.commit_quality = -30
    ∧ (calculate_health_score tenWarningsResults { check_commits := true }
        ⟨2024, 1, 1, 0, 0, 0⟩).2.security = 0 := by
  have h := claim_C2 tenWarningsResults { check_commits := true }
    ⟨2024, 1, 1, 0, 0, 0⟩
  exact ⟨h.2.2.2.2.2.1 rfl (by simp [tenWarningsResults]),
    h.2.2.2.2.2.2.2.1 rfl⟩

/-! ## Claim theorem on the commit-quality classifier -/

/-- C3: the literal line `"abc1234 wip"` yields exactly a bad-keyword warning
for `wip` followed by a very-short-message warning; the line
`"abc1234 Merge branch 'x' into y"` yields no warning at all — in particular
no very-short-message warning — and its lowercased subject does start with
`merge`. -/
theorem claim_C3 :
    analyze_commit_quality ["abc1234 wip"]
      = [{ message := "Bad commit message: \x27abc1234 wip\x27 (contains \x27wip\x27)"
           tip := "Use descriptive commit messages, e.g., \x27Add user authentication feature\x27." },
         { message := "Very short commit message: \x27abc1234 wip\x27"
           tip := "Write meaningful commit messages explaining what changed and why." }]
    ∧ analyze_commit_quality ["abc1234 Merge branch \x27x\x27 into y"] = []
    ∧ pyStartsWith (pyLower "Merge branch \x27x\x27 into y") "merge" = true := by
  refine ⟨?_, ?_, ?_⟩ <;> decide

/-! ## Claim theorem on entropy -/

theorem foldl_bumpCount_replicate (c : Char) (n m : Nat) :
    List.foldl bumpCount [(c, m)] (List.replicate n c) = [(c, m + n)] := by
  induction n generalizing m with
  | zero => simp
  | succ n ih =>
    rw [List.replicate_succ, List.foldl_cons]
    have hb : bumpCount [(c, m)] c = [(c, m + 1)] := by simp [bumpCount]
    rw [hb, ih]
    have hm : m + 1 + n = m + (n + 1) := by omega
    rw [hm]

theorem charCounts_replicate (c : Char) (n : Nat) :
    charCounts (List.replicate (n + 1) c) = [(c, n + 1)] := by
  unfold charCounts
  rw [List.replicate_succ, List.foldl_cons]
  have hb : bumpCount [] c = [(c, 1)] := by simp [bumpCount]
  rw [hb, foldl_bumpCount_replicate]
  have hm : 1 + n = n + 1 := by omega
  rw [hm]

/-- C9: `calculate_entropy` returns exactly 0 for every string that consists
of a single character repeated, of any length. -/
theorem claim_C9 (c : Char) (n : Nat) :
    calculate_entropy (List.replicate n c) = 0 := by
  cases n with
  | zero => simp [calculate_entropy]
  | succ n =>
    have hcc := charCounts_replicate c n
    have hne : (((n : ℝ) + 1)) ≠ 0 := by positivity
    unfold calculate_entropy
    rw [if_neg (by simp)]
    rw [hcc]
    simp only [List.foldl_cons, List.foldl_nil, List.length_replicate]
    push_cast
    rw [div_self hne, Real.logb_one]
    ring

/-! ## Claim theorem on the coverage estimator -/

theorem coverageLoop_tested (tf : List (String × List String))
    (cf : List (String × ModInfo)) (acc : CovAcc) :
    (coverageLoop tf cf acc).tested_functions
      = acc.tested_functions + (cf.map (moduleCovered tf)).sum := by
  induction cf generalizing acc with
  | nil => simp [coverageLoop]
  | cons p rest ih =>
    obtain ⟨m, info⟩ := p
    simp only [coverageLoop]
    cases hlk : tf.lookup m with
    | some tfs =>
      rw [ih]
      simp [moduleCovered, hlk]
      omega
    | none =>
      rw [ih]
      simp [moduleCovered, hlk]

theorem coverageLoop_warnings (tf : List (String × List String))
    (cf : List (String × ModInfo)) (acc : CovAcc) :
    (coverageLoop tf cf acc).coverage_warnings
      = acc.coverage_warnings
        ++ (cf.filter (fun p => (tf.lookup p.1).isNone)).map
            (fun p => noTestWarning p.1 p.2) := by
  induction cf generalizing acc with
  | nil => simp [coverageLoop]
  | cons p rest ih =>
    obtain ⟨m, info⟩ := p
    simp only [coverageLoop]
    cases hlk : tf.lookup m with
    | some tfs =>
      rw [ih]
      simp [hlk]
    | none =>
      rw [ih]
      simp [hlk]

theorem countP_key_unique (cf : List (String × ModInfo)) (m : String)
    (info : ModInfo) (hm : (m, info) ∈ cf)
    (hnd : (cf.map Prod.fst).Nodup) :
    cf.countP (fun p => p.1 == m) = 1 := by
  induction cf with
  | nil => simp at hm
  | cons q rest ih =>
    obtain ⟨m', i'⟩ := q
    simp only [List.map_cons, List.nodup_cons] at hnd
    rcases List.mem_cons.mp hm with heq | hrest
    · have hm' : m' = m := by
        have := congrArg Prod.fst heq.symm
        simpa using this
      subst hm'
      rw [List.countP_cons]
      have hz : rest.countP (fun p => p.1 == m') = 0 := by
        rw [List.countP_eq_zero]
        intro a ha hcontra
        apply hnd.1
        have : a.1 = m' := by simpa using hcontra
        exact this ▸ List.mem_map_of_mem Prod.fst ha
      simp [hz]
    · have hmem : m ∈ rest.map Prod.fst := by
        simpa using List.mem_map_of_mem Prod.fst hrest
      have hne : (m' == m) = false := by
        rcases hnd with ⟨hnotin, _⟩
        simp only [beq_eq_false_iff_ne, ne_eq]
        intro hc
        exact hnotin (hc ▸ hmem)
      rw [List.countP_cons, ih hrest hnd.2]
      simp [hne]

/-- C6: for every source module counted by the coverage estimator, a module
with a matching test file of `M` test functions contributes exactly
`min(2·M, N)` covered functions (and the loop's `tested_functions` output is
the sum of those contributions); a module with no matching test file
generates exactly one "no test file found" warning, the loop's warnings
being exactly one warning per uncovered module. -/
theorem claim_C6 (tf : List (String × List String))
    (cf : List (String × ModInfo)) (m : String) (info : ModInfo)
    (hm : (m, info) ∈ cf) (hnd : (cf.map Prod.fst).Nodup) :
    (∀ tfs, tf.lookup m = some tfs →
      moduleCovered tf (m, info) = min (2 * tfs.length) info.functions.length)
    ∧ (coverageLoop tf cf ⟨0, 0, 0, []⟩).tested_functions
        = (cf.map (moduleCovered tf)).sum
    ∧ (tf.lookup m = none →
        (coverageLoop tf cf ⟨0, 0, 0, []⟩).coverage_warnings
          = (cf.filter (fun p => (tf.lookup p.1).isNone)).map
              (fun p => noTestWarning p.1 p.2)
        ∧ cf.countP (fun p => (tf.lookup p.1).isNone && p.1 == m) = 1) := by
  refine ⟨?_, ?_, ?_⟩
  · intro tfs hlk
    simp [moduleCovered, hlk, Nat.mul_comm]
  · rw [coverageLoop_tested]
    simp
  · intro hnone
    refine ⟨by rw [coverageLoop_warnings]; simp, ?_⟩
    have hcong : cf.countP (fun p => (tf.lookup p.1).isNone && p.1 == m)
        = cf.countP (fun p => p.1 == m) := by
      apply List.countP_congr
      intro a _
      by_cases hma : a.1 = m
      · simp [hma, hnone]
      · simp [hma]
    rw [hcong]
    exact countP_key_unique cf m info hm hnd

/-- Concrete coverage inputs for the C6 witness: one covered module with one
test function, one module with no test file. -/
def covTf : List (String × List String) := [("mod", ["t1"])]

def covInfo1 : ModInfo := ⟨"mod.py", ["f", "g", "h"], 5⟩

def covInfo2 : ModInfo := ⟨"other.py", ["f"], 3⟩

def covCf : List (String × ModInfo) := [("mod", covInfo1), ("other", covInfo2)]

/-- Witness for C6 at the concrete inputs above. -/
theorem claim_C6_witness :
    moduleCovered covTf ("mod", covInfo1) = min (2 * 1) 3
    ∧ List.countP (fun p => (covTf.lookup p.1).isNone && p.1 == "other") covCf
        = 1 := by
  have h1 := claim_C6 covTf covCf "mod" covInfo1 (by decide) (by decide)
  have h2 := claim_C6 covTf covCf "other" covInfo2 (by decide) (by decide)
  exact ⟨h1.1 ["t1"] (by decide), (h2.2.2 (by decide)).2⟩

/-! ## Claim theorems on the recorded function lists (C7) -/

theorem allNodes_eq_cons (s : PyStmt) :
    allNodes s = s :: allNodes.allNodesList s.children := by
  cases s <;> rfl

theorem allNodesList_append (a b : List PyStmt) :
    allNodes.allNodesList (a ++ b)
      = allNodes.allNodesList a ++ allNodes.allNodesList b := by
  induction a with
  | nil => simp [allNodes.allNodesList]
  | cons s rest ih => simp [allNodes.allNodesList, ih]

/-- The breadth-first `ast.walk` enumerates exactly the nodes of the trees in
its queue, up to order. -/
theorem walkBFS_perm (q : List PyStmt) :
    (walkBFS q).Perm (allNodes.allNodesList q) := by
  match q with
  | [] => simp [walkBFS, allNodes.allNodesList]
  | s :: rest =>
    simp only [walkBFS]
    have ih := walkBFS_perm (rest ++ s.children)
    have h1 : (walkBFS (rest ++ s.children)).Perm
        (allNodes.allNodesList s.children ++ allNodes.allNodesList rest) := by
      refine ih.trans ?_
      rw [allNodesList_append]
      exact List.perm_append_comm
    have h2 : allNodes.allNodesList (s :: rest)
        = s :: (allNodes.allNodesList s.children ++ allNodes.allNodesList rest) := by
      show allNodes s ++ allNodes.allNodesList rest = _
      rw [allNodes_eq_cons]
      simp
    rw [h2]
    exact h1.cons s
termination_by sizeListPS q
decreasing_by
  have h1 := sizeListPS_children_lt s
  simp [sizeListPS, sizeListPS_append]
  omega

/-- The module body used as the C7 counterexample: a class with one public
method and one underscore-prefixed method, and no top-level function. -/
def cexBody : List PyStmt :=
  [.classDef "C" [.functionDef "helper" [], .functionDef "_priv" []]]

/-- Counterexample to C7: on a file whose only functions are methods inside
a class, the code records the public method `helper`, while the claimed
"top-level only" list is empty. -/
theorem claim_C7_counterexample :
    collect_functions cexBody = ["helper"]
    ∧ specTopLevelFunctions cexBody = []
    ∧ collect_functions cexBody ≠ specTopLevelFunctions cexBody := by
  have h1 : collect_functions cexBody = ["helper"] := by
    simp [collect_functions, cexBody, walkBFS, PyStmt.children,
      keepFunctionName, pyStartsWith]
  have h2 : specTopLevelFunctions cexBody = [] := by
    simp [specTopLevelFunctions, cexBody, keepFunctionName]
  refine ⟨h1, h2, ?_⟩
  rw [h1, h2]
  simp

/-- C7 amended: the recorded function list contains exactly (up to the order
of the breadth-first walk) the non-underscore-prefixed names of all function
definitions in the file at any nesting depth — methods inside classes and
nested functions included. -/
theorem claim_C7_amended (body : List PyStmt) :
    (collect_functions body).Perm
      ((allNodes.allNodesList body).filterMap keepFunctionName) :=
  (walkBFS_perm body).filterMap keepFunctionName

/-! ## Claim theorems on git-history error handling (C8) -/

/-- A collaborator whose commit count succeeds, whose timestamp string does
not parse, and whose log contains a low-quality commit line. -/
def gitCexCollab : GitCollab :=
  ⟨.ok ⟨"5\n"⟩, .ok ⟨"definitely not a date\n"⟩, .ok ⟨"abc1234 wip\n"⟩⟩

/-- Counterexample to C8: with the commit-quality check requested and a
timestamp string that fails to parse, `analyze_git_history` returns the
obtained commit count and no date, but EMPTY commit-quality warnings — the
`except ValueError` clause aborts the whole `try` block before the
commit-quality analysis runs, although the summaries would have produced
warnings. -/
theorem claim_C8_counterexample :
    (analyze_git_history gitCexCollab true).total_commits = 5
    ∧ (analyze_git_history gitCexCollab true).most_recent_commit_date = none
    ∧ (analyze_git_history gitCexCollab true).commits_quality_warnings = []
    ∧ analyze_commit_quality (onelineCommits "abc1234 wip\n") ≠ [] := by
  refine ⟨?_, ?_, ?_, ?_⟩ <;> decide

/-- C8 amended: when the commit count is obtained but the timestamp string
fails to parse, `analyze_git_history` returns the obtained `total_commits`,
an absent `most_recent_commit_date`, and EMPTY commit-quality warnings even
when the commit check is requested (the analysis of the summaries is
skipped); the scoring computation still runs to completion on the partial
history, producing a score between 0 and 100. -/
theorem claim_C8_amended (collab : GitCollab) (checkc : Bool)
    (countOut dateOut : RunOutput) (n : Int)
    (h1 : collab.revListCount = .ok countOut)
    (h2 : pyParseInt countOut.stdout = some n)
    (h3 : collab.logDate = .ok dateOut)
    (h4 : pyStrip dateOut.stdout ≠ "")
    (h5 : strptimeYmdHms (pySliceTo (pyStrip dateOut.stdout) 19) = none) :
    analyze_git_history collab checkc
      = { total_commits := n.toNat, most_recent_commit_date := none,
          commits_quality_warnings := [] }
    ∧ ∀ (st : Option StructureR) (opts : Options) (t : PyDateTime),
        0 ≤ (calculate_health_score
            { structureRep := st,
              history := some (analyze_git_history collab checkc) } opts t).1
        ∧ (calculate_health_score
            { structureRep := st,
              history := some (analyze_git_history collab checkc) } opts t).1
          ≤ 100 := by
  constructor
  · unfold analyze_git_history
    rw [h1]
    simp only [h2, h3, h5, if_pos h4]
  · intro st opts t
    have hb := calculate_health_score_bounds
      { structureRep := st, history := some (analyze_git_history collab checkc) }
      opts t
    exact ⟨hb.1, hb.2.1⟩

/-- Witness for C8 amended at the concrete collaborator above. -/
theorem claim_C8_amended_witness :
    analyze_git_history gitCexCollab true
      = { total_commits := 5, most_recent_commit_date := none,
          commits_quality_warnings := [] }
    ∧ 0 ≤ (calculate_health_score
        { history := some (analyze_git_history gitCexCollab true) } {}
        ⟨2024, 1, 1, 0, 0, 0⟩).1 := by
  have h := claim_C8_amended gitCexCollab true ⟨"5\n"⟩
    ⟨"definitely not a date\n"⟩ 5 rfl (by decide) rfl (by decide) (by decide)
  exact ⟨h.1, (h.2 none {} ⟨2024, 1, 1, 0, 0, 0⟩).1⟩

/-! ## Claim theorems on the circular-dependency detector (C4, C5) -/

mutual

/-- Counting invariant of `has_cycle`: starting with no cycle found, the
returned flag equals the returned Boolean, and exactly one warning is
appended iff a cycle was found. -/
theorem hasCycle_count (g : ImportGraph) (fuel : Nat) (node : String)
    (st : DfsSt) (hc : st.cycleFound = false) :
    (hasCycle g fuel node st).2.cycleFound = (hasCycle g fuel node st).1
    ∧ (hasCycle g fuel node st).2.warnings.length
        = st.warnings.length
          + (if (hasCycle g fuel node st).1 then 1 else 0) := by
  match fuel with
  | 0 => simp [hasCycle, hc]
  | fuel + 1 =>
    simp only [hasCycle]
    exact neighLoop_count g fuel node (graphGet g node)
      ⟨node :: st.visited, node :: st.recStack, st.path ++ [node],
        st.warnings, st.cycleFound⟩ hc
termination_by (fuel, 0)

/-- Counting invariant of the neighbour loop of `has_cycle`. -/
theorem neighLoop_count (g : ImportGraph) (fuel : Nat) (node : String)
    (neighbors : List String) (st : DfsSt) (hc : st.cycleFound = false) :
    (neighLoop g fuel node neighbors st).2.cycleFound
        = (neighLoop g fuel node neighbors st).1
    ∧ (neighLoop g fuel node neighbors st).2.warnings.length
        = st.warnings.length
          + (if (neighLoop g fuel node neighbors st).1 then 1 else 0) := by
  match neighbors with
  | [] => simp [neighLoop, hc]
  | nb :: rest =>
    simp only [neighLoop]
    by_cases hv : nb ∈ st.visited
    · simp only [hv, if_true]
      by_cases hr : nb ∈ st.recStack
      · simp [hr]
      · simp only [hr, if_false]
        exact neighLoop_count g fuel node rest st hc
    · simp only [hv, if_false]
      have h := hasCycle_count g fuel nb st hc
      rcases hb : hasCycle g fuel nb st with ⟨b, st2⟩
      rw [hb] at h
      match b with
      | true => simpa using h
      | false =>
        simp only at h
        have h2 := neighLoop_count g fuel node rest st2 h.1
        refine ⟨h2.1, ?_⟩
        rw [h2.2, h.2]
        simp
termination_by (fuel, neighbors.length + 1)

end

/-- Counting invariant of the driver loop: at most one warning is ever
accumulated. -/
theorem outerLoop_count (g : ImportGraph) (fuel : Nat) (nodes : List String)
    (st : DfsSt) (hc : st.cycleFound = false) :
    (outerLoop g fuel nodes st).warnings.length ≤ st.warnings.length + 1 := by
  induction nodes generalizing st with
  | nil => simp [outerLoop]
  | cons node rest ih =>
    simp only [outerLoop]
    by_cases hv : node ∈ st.visited
    · simp only [hv, if_true]
      exact ih st hc
    · simp only [hv, if_false]
      have h := hasCycle_count g fuel node st hc
      rcases hb : hasCycle g fuel node st with ⟨b, st2⟩
      rw [hb] at h
      match b with
      | true =>
        simp only at h
        simp [h.1, h.2]
      | false =>
        simp only at h
        rw [h.1]
        simp only [if_false, Bool.false_eq_true]
        have h3 := ih st2 h.1
        have h4 : st2.warnings.length = st.warnings.length := by
          simpa using h.2
        omega

/-- C4: for every import graph, the circular-dependency detector returns at
most one warning per run — it stops after the first cycle found. -/
theorem claim_C4 (g : ImportGraph) :
    (check_circular_dependencies g).length ≤ 1 := by
  unfold check_circular_dependencies
  have h := outerLoop_count g (dfsFuel g) (g.map Prod.fst) ⟨[], [], [], [], false⟩ rfl
  simpa using h

/-- Consecutive elements of a DFS path are joined by import edges. -/
def goodPath (g : ImportGraph) : List String → Prop
  | [] => True
  | [_] => True
  | a :: b :: rest => b ∈ graphGet g a ∧ goodPath g (b :: rest)

theorem goodPath_reaches (g : ImportGraph) :
    ∀ (l : List String) (nb node : String), goodPath g l → nb ∈ l →
      l.getLast? = some node → Reaches g nb node := by
  intro l
  induction l with
  | nil => simp
  | cons a rest ih =>
    intro nb node hgp hmem hlast
    cases rest with
    | nil =>
      have hnb : nb = a := by simpa using hmem
      have hnode : a = node := by simpa using hlast
      subst hnb
      subst hnode
      exact Reaches.refl nb
    | cons b rest2 =>
      have hedge : b ∈ graphGet g a := hgp.1
      have hgp2 : goodPath g (b :: rest2) := hgp.2
      have hlast2 : (b :: rest2).getLast? = some node := by
        rwa [List.getLast?_cons_cons] at hlast
      rcases List.mem_cons.mp hmem with heq | hmem2
      · subst heq
        exact Reaches.step hedge
          (ih b node hgp2 (List.mem_cons_self b rest2) hlast2)
      · exact ih nb node hgp2 hmem2 hlast2

theorem goodPath_append (g : ImportGraph) :
    ∀ (l : List String) (node nb : String), goodPath g l →
      l.getLast? = some node → nb ∈ graphGet g node →
      goodPath g (l ++ [nb]) := by
  intro l
  induction l with
  | nil => intro node nb _ hlast _; simp at hlast
  | cons a rest ih =>
    intro node nb hgp hlast hnb
    cases rest with
    | nil =>
      have hnode : a = node := by simpa using hlast
      subst hnode
      exact ⟨hnb, trivial⟩
    | cons b rest2 =>
      have hlast2 : (b :: rest2).getLast? = some node := by
        rwa [List.getLast?_cons_cons] at hlast
      exact ⟨hgp.1, ih node nb hgp.2 hlast2 hnb⟩

mutual

/-- On an acyclic graph, `has_cycle` returns `false`, restores the path and
recursion stack, and leaves warnings and the cycle flag untouched. -/
theorem hasCycle_acyclic (g : ImportGraph) (hA : Acyclic g) (fuel : Nat)
    (node : String) (st : DfsSt)
    (hp : goodPath g (st.path ++ [node]))
    (hrs : st.recStack = st.path.reverse) :
    (hasCycle g fuel node st).1 = false
    ∧ (hasCycle g fuel node st).2.path = st.path
    ∧ (hasCycle g fuel node st).2.recStack = st.recStack
    ∧ (hasCycle g fuel node st).2.warnings = st.warnings
    ∧ (hasCycle g fuel node st).2.cycleFound = st.cycleFound := by
  match fuel with
  | 0 => simp [hasCycle]
  | fuel + 1 =>
    simp only [hasCycle]
    have h := neighLoop_acyclic g hA fuel node (graphGet g node)
      ⟨node :: st.visited, node :: st.recStack, st.path ++ [node],
        st.warnings, st.cycleFound⟩
      (by simp)
      hp
      (by simp [hrs, List.reverse_append])
      (fun x hx => hx)
    refine ⟨h.1, ?_, ?_, h.2.2.2.1, h.2.2.2.2⟩
    · rw [h.2.1]
      simp
    · rw [h.2.2.1]
      exact List.erase_cons_head node st.recStack
termination_by (fuel, 0)

/-- On an acyclic graph, the neighbour loop never reaches the cycle branch:
it returns `false` and pops the current node. -/
theorem neighLoop_acyclic (g : ImportGraph) (hA : Acyclic g) (fuel : Nat)
    (node : String) (neighbors : List String) (st : DfsSt)
    (hlast : st.path.getLast? = some node)
    (hp : goodPath g st.path)
    (hrs : st.recStack = st.path.reverse)
    (hsub : ∀ x ∈ neighbors, x ∈ graphGet g node) :
    (neighLoop g fuel node neighbors st).1 = false
    ∧ (neighLoop g fuel node neighbors st).2.path = st.path.dropLast
    ∧ (neighLoop g fuel node neighbors st).2.recStack = st.recStack.erase node
    ∧ (neighLoop g fuel node neighbors st).2.warnings = st.warnings
    ∧ (neighLoop g fuel node neighbors st).2.cycleFound = st.cycleFound := by
  match neighbors with
  | [] => simp [neighLoop]
  | nb :: rest =>
    simp only [neighLoop]
    have hnb : nb ∈ graphGet g node := hsub nb (List.mem_cons_self nb rest)
    by_cases hv : nb ∈ st.visited
    · simp only [hv, if_true]
      by_cases hr : nb ∈ st.recStack
      · exfalso
        have hnbp : nb ∈ st.path := by
          rw [hrs] at hr
          exact List.mem_reverse.mp hr
        exact hA node nb hnb (goodPath_reaches g st.path nb node hp hnbp hlast)
      · simp only [hr, if_false]
        exact neighLoop_acyclic g hA fuel node rest st hlast hp hrs
          (fun x hx => hsub x (List.mem_cons_of_mem nb hx))
    · simp only [hv, if_false]
      have hpath1 : goodPath g (st.path ++ [nb]) :=
        goodPath_append g st.path node nb hp hlast hnb
      have h := hasCycle_acyclic g hA fuel nb st hpath1 hrs
      rcases hb : hasCycle g fuel nb st with ⟨b, st2⟩
      rw [hb] at h
      obtain ⟨hb1, hpath2, hrs2, hw2, hcf2⟩ := h
      simp only at hb1 hpath2 hrs2 hw2 hcf2
      subst hb1
      simp only
      have h2 := neighLoop_acyclic g hA fuel node rest st2
        (by rw [hpath2]; exact hlast)
        (by rw [hpath2]; exact hp)
        (by rw [hrs2, hpath2]; exact hrs)
        (fun x hx => hsub x (List.mem_cons_of_mem nb hx))
      refine ⟨h2.1, ?_, ?_, ?_, ?_⟩
      · rw [h2.2.1, hpath2]
      · rw [h2.2.2.1, hrs2]
      · rw [h2.2.2.2.1, hw2]
      · rw [h2.2.2.2.2, hcf2]
termination_by (fuel, neighbors.length + 1)

end

/-- On an acyclic graph the driver loop accumulates no warning. -/
theorem outerLoop_acyclic (g : ImportGraph) (hA : Acyclic g) (fuel : Nat)
    (nodes : List String) (st : DfsSt)
    (hpath : st.path = []) (hrs : st.recStack = [])
    (hcf : st.cycleFound = false) :
    (outerLoop g fuel nodes st).warnings = st.warnings := by
  induction nodes generalizing st with
  | nil => simp [outerLoop]
  | cons node rest ih =>
    simp only [outerLoop]
    by_cases hv : node ∈ st.visited
    · simp only [hv, if_true]
      exact ih st hpath hrs hcf
    · simp only [hv, if_false]
      have h := hasCycle_acyclic g hA fuel node st
        (by rw [hpath]; exact trivial)
        (by rw [hpath, hrs]; rfl)
      rcases hb : hasCycle g fuel node st with ⟨b, st2⟩
      rw [hb] at h
      obtain ⟨hb1, hpath2, hrs2, hw2, hcf2⟩ := h
      simp only at hb1 hpath2 hrs2 hw2 hcf2
      simp only [hcf2, hcf, if_false, Bool.false_eq_true]
      rw [ih st2 (hpath2.trans hpath) (hrs2.trans hrs) (hcf2.trans hcf)]
      exact hw2

/-- C5: for the two-node mutual-import graph (`a imports b`, `b imports a`)
the detector produces exactly one warning whose message names both `a` and
`b`; for every acyclic import graph it produces zero warnings. -/
theorem claim_C5 :
    (check_circular_dependencies [("a", ["b"]), ("b", ["a"])]
        = [cycleWarning ["a", "b", "a"]]
      ∧ (cycleWarning ["a", "b", "a"]).message
          = "Circular dependency detected: a -> b -> a"
      ∧ strContainsSub (cycleWarning ["a", "b", "a"]).message "a" = true
      ∧ strContainsSub (cycleWarning ["a", "b", "a"]).message "b" = true)
    ∧ ∀ g : ImportGraph, Acyclic g → check_circular_dependencies g = [] := by
  constructor
  · refine ⟨?_, by decide, by decide, by decide⟩
    simp [check_circular_dependencies, dfsFuel, outerLoop, hasCycle, neighLoop,
      graphGet, List.lookup, List.indexOf, List.findIdx, List.findIdx.go]
  · intro g hA
    unfold check_circular_dependencies
    exact outerLoop_acyclic g hA (dfsFuel g) (g.map Prod.fst)
      ⟨[], [], [], [], false⟩ rfl rfl rfl

/-- A linear acyclic import chain used as the C5 witness input. -/
def chainGraph : ImportGraph := [("a", ["b"])]

theorem chainGraph_reaches (u v : String) (h : Reaches chainGraph u v) :
    u = "b" → v = "b" := by
  induction h with
  | refl a => exact fun h => h
  | step hedge hr ih =>
    intro hu
    subst hu
    simp [graphGet, chainGraph, List.lookup] at hedge

theorem chainGraph_acyclic : Acyclic chainGraph := by
  intro a b hedge hr
  by_cases ha : a = "a"
  · subst ha
    have hb : b = "b" := by
      simpa [graphGet, chainGraph, List.lookup] using hedge
    subst hb
    have := chainGraph_reaches "b" "a" hr rfl
    simp at this
  · have hb : (a == "a") = false := by
      simpa using ha
    simp [graphGet, chainGraph, List.lookup, hb] at hedge

/-- Witness for C5: the acyclic-graph half applied to the concrete linear
chain. -/
theorem claim_C5_witness : check_circular_dependencies chainGraph = [] :=
  claim_C5.2 chainGraph chainGraph_acyclic

end RepoOptimizer
